import Mathlib

/-
Verification of the node-webworker master-side worker controller
(lib source: the WorkerImpl object) and the child-side runtime
(libexec/worker.js), as a shallow embedding.

The controller is an event-loop object; we embed it as an explicit state
record plus one pure transition function per event-loop callback of the
source (connection acceptance, postMessageImpl, terminate, the kill-timer
callback, the child-process exit listener).  Assertion failures and
JavaScript TypeErrors are modelled by returning none; observable effects
(envelopes written to the message stream, SIGTERM kills, emitted exit
events) are recorded in the state.
-/

set_option maxHeartbeats 1000000

namespace WebWorker

/- Message type tags.  Modelled from the spec: the wwutil module defining the
numeric MSGTYPE constants is not under src; the spec fixes only that they are
a closed enumeration of distinct, stable integer tags, which is all the
dispatch code relies on.  The concrete values below are arbitrary distinct
naturals. -/

def MSGTYPE_NOOP : Nat := 0

def MSGTYPE_HANDSHAKE : Nat := 1

def MSGTYPE_ERROR : Nat := 2

def MSGTYPE_CLOSE : Nat := 3

def MSGTYPE_USER : Nat := 100

/-- A wire envelope: the code queues [type, msg, fd] tuples and sends
([type, msg], fd) pairs over the MsgStream; both carry the same three
components.  The payload type is a parameter; an absent (undefined) payload
or fd is none. -/
structure Envelope (α : Type) where
  msgType : Nat
  payload : Option α
  fd : Option Nat
deriving DecidableEq

/-- The per-worker mutable state of WorkerImpl, plus instrumentation of its
observable effects.  Fields mirror the closure variables of the source:
killTimeoutID (the armed kill-timer handle, recorded with its delay),
pid (saved child pid, persists after exit), cp (none until spawn; afterwards
some cpPid, where cpPid mirrors the cp.pid property, which node clears when
the process exits), stream and msgStream definedness flags, and msgQueue.
wire records every envelope handed to msgStream.send in order; killsSent
counts cp.kill invocations; exitEventsEmitted counts emitted exit events;
srvClosed records srv.close(). -/
structure WorkerState (α : Type) where
  killTimeoutID : Option Nat
  pid : Option Nat
  cp : Option (Option Nat)
  streamDefined : Bool
  msgStreamDefined : Bool
  msgQueue : List (Envelope α)
  wire : List (Envelope α)
  killsSent : Nat
  exitEventsEmitted : Nat
  srvClosed : Bool
deriving DecidableEq

/-- The state of a freshly constructed WorkerImpl (all closure variables
undefined, empty queue, no effects yet). -/
def initState (α : Type) : WorkerState α :=
  ⟨none, none, none, false, false, [], [], 0, 0, false⟩

/-- postMessageImpl(msgType, msg, fd): asserts
msgQueue.length == 0 || !msgStream, then either sends [msgType, msg] with fd
directly on the established msgStream, or pushes [msgType, msg, fd] onto
msgQueue.  none models the assertion throwing. -/
def postMessageImpl {α : Type} (st : WorkerState α) (msgType : Nat)
    (msg : Option α) (fd : Option Nat) : Option (WorkerState α) :=
  if st.msgQueue.length = 0 ∨ st.msgStreamDefined = false then
    if st.msgStreamDefined then
      some { st with wire := st.wire ++ [⟨msgType, msg, fd⟩] }
    else
      some { st with msgQueue := st.msgQueue ++ [⟨msgType, msg, fd⟩] }
  else
    none

/-- The net.createServer connection callback: asserts stream and msgStream
are both undefined, binds them, re-sends every queued [type, msg, fd] tuple
over the new msgStream in queue order (each forEach iteration pops the fd
and sends the remaining [type, msg] with it, reconstituting the same
envelope), and clears the queue.  A connection can only arrive while the
server is still listening (srv.close() has not run).  none models the
assertion throwing on a second connection. -/
def onConnection {α : Type} (st : WorkerState α) : Option (WorkerState α) :=
  if st.srvClosed = false ∧ st.streamDefined = false ∧ st.msgStreamDefined = false then
    some { st with streamDefined := true, msgStreamDefined := true,
                   wire := st.wire ++ st.msgQueue, msgQueue := [] }
  else
    none

/-- The body of the listening callback in start(): spawns the child process
and saves its pid into both cp and pid.  The callback fires once per server;
cp is still undefined when it runs. -/
def spawnChild {α : Type} (st : WorkerState α) (childPid : Nat) :
    Option (WorkerState α) :=
  if st.cp = none then
    some { st with cp := some (some childPid), pid := some childPid }
  else
    none

/-- terminate(timeout): asserts pid is defined and cp.pid == pid || !cp.pid
(reading cp.pid of an undefined cp throws, also modelled none); defaults an
omitted timeout to 5000; no-ops when the child already exited (!cp.pid) or a
kill timer is already armed (killTimeoutID set); otherwise sends a CLOSE
envelope via postMessageImpl and, when timeout > 0, arms the kill timer. -/
def terminate {α : Type} (st : WorkerState α) (timeout : Option Nat) :
    Option (WorkerState α) :=
  match st.pid, st.cp with
  | some p, some cpPid =>
    if cpPid = some p ∨ cpPid = none then
      if cpPid = none then
        some st
      else if st.killTimeoutID.isSome then
        some st
      else
        match postMessageImpl st MSGTYPE_CLOSE none none with
        | none => none
        | some st2 =>
          if (match timeout with | none => 5000 | some v => v) > 0 then
            some { st2 with killTimeoutID := some (match timeout with | none => 5000 | some v => v) }
          else
            some st2
    else
      none
  | _, _ => none

/-- The kill-timer callback armed by terminate: it can only run while the
timer is armed (a cleared or never-armed timer never fires, modelled none);
it first clears killTimeoutID, then returns if the child has already exited
(!cp.pid), and otherwise sends SIGTERM via cp.kill. -/
def killTimerFire {α : Type} (st : WorkerState α) : Option (WorkerState α) :=
  match st.killTimeoutID with
  | none => none
  | some _ =>
    match st.cp with
    | some (some _) =>
      some { st with killTimeoutID := none, killsSent := st.killsSent + 1 }
    | some none =>
      some { st with killTimeoutID := none }
    | none => none

/-- The cp exit listener, together with node clearing cp.pid when the child
process exits.  It fires once per spawned child (modelled by requiring a
still-running child), clears any pending kill timer, destroys the stream
when one exists (the variable stays bound), closes the server, and emits the
exit event on the next tick. -/
def childExit {α : Type} (st : WorkerState α) : Option (WorkerState α) :=
  match st.cp with
  | some (some _) =>
    some { st with cp := some none, killTimeoutID := none, srvClosed := true,
                   exitEventsEmitted := st.exitEventsEmitted + 1 }
  | _ => none

/-- The event alphabet of one worker controller: the listening callback
(spawn), a connection acceptance, a public postMessage call, a public
terminate call, the kill-timer deadline firing, and the child process
exiting. -/
inductive Ev (α : Type) where
  | spawn (childPid : Nat)
  | accept
  | post (msg : Option α) (fd : Option Nat)
  | term (timeout : Option Nat)
  | timerFire
  | exited
deriving DecidableEq

/-- One scheduler step of the controller.  self.postMessage(msg, fd) is
postMessageImpl(MSGTYPE_USER, msg, fd). -/
def step {α : Type} (st : WorkerState α) : Ev α → Option (WorkerState α)
  | .spawn p => spawnChild st p
  | .accept => onConnection st
  | .post m fd => postMessageImpl st MSGTYPE_USER m fd
  | .term t => terminate st t
  | .timerFire => killTimerFire st
  | .exited => childExit st

/-- Runs a sequence of events from a state; none as soon as a step is
impossible or an assertion throws. -/
def run {α : Type} (st : WorkerState α) : List (Ev α) → Option (WorkerState α)
  | [] => some st
  | e :: evs =>
    match step st e with
    | none => none
    | some st2 => run st2 evs

/-- The envelope produced by a postMessage call with payload m.1 and file
descriptor m.2. -/
def userEnv {α : Type} (m : Option α × Option Nat) : Envelope α :=
  ⟨MSGTYPE_USER, m.1, m.2⟩

/-- The envelope terminate sends to request graceful shutdown. -/
def closeEnv (α : Type) : Envelope α := ⟨MSGTYPE_CLOSE, none, none⟩

/-- An inbound frame as seen by a message listener: some (type, payload) for
a frame wwutil.isValidMessage accepts, none for one it rejects.  Modelled
from the spec: wwutil.isValidMessage is not under src; the spec says the
wire unit is a well-formed [type, payload] record and malformed frames are
dropped with a diagnostic, so validity is exactly well-formedness. -/
def RawMsg (α : Type) : Type := Option (Nat × Option α)

/-- The immediate actions of the master-side handleMessage: a debug log for
an invalid or unexpected message, or an event emission deferred to the next
scheduler tick via process.nextTick (never synchronous in the I/O
callback). -/
inductive MasterAction (α : Type) where
  | logInvalid
  | logUnexpected
  | nextTickEmitError (payload : Option α)
  | nextTickEmitMessage (data : Option α) (fd : Option Nat)
deriving DecidableEq

/-- The fd attached to the emitted message event: the source runs
if (fd) e.fd = fd, so the fd is attached exactly when it is defined and
nonzero (JavaScript truthiness of a number). -/
def attachFd (fd : Option Nat) : Option Nat :=
  match fd with
  | none => none
  | some n => if n = 0 then none else some n

/-- handleMessage(msg, fd) of the master: logs and drops an invalid message;
discards NOOP; defers an error event with the payload for ERROR; defers a
message event { data, fd? } for USER; logs any other type as unexpected. -/
def handleMessage {α : Type} (msg : RawMsg α) (fd : Option Nat) :
    List (MasterAction α) :=
  match msg with
  | none => [.logInvalid]
  | some td =>
    if td.1 = MSGTYPE_NOOP then []
    else if td.1 = MSGTYPE_ERROR then [.nextTickEmitError td.2]
    else if td.1 = MSGTYPE_USER then [.nextTickEmitMessage td.2 (attachFd fd)]
    else [.logUnexpected]

/-- The child-runtime actions its msg listener can take, plus the process
exit that workerCtx.close performs. -/
inductive ChildAction (α : Type) where
  | noAction
  | logInvalid
  | logUnexpected
  | dispatchOnMessage (payload : Option α)
  | exitProcess (code : Nat)
deriving DecidableEq

/-- The ms msg listener of libexec/worker.js: logs and drops an invalid
message; ignores NOOP; dispatches USER payloads to workerCtx.onmessage; and
logs every other type, CLOSE included, as an unexpected message.  Its switch
has no MSGTYPE_CLOSE case. -/
def childHandleMsg {α : Type} (msg : RawMsg α) : ChildAction α :=
  match msg with
  | none => .logInvalid
  | some td =>
    if td.1 = MSGTYPE_NOOP then .noAction
    else if td.1 = MSGTYPE_USER then .dispatchOnMessage td.2
    else .logUnexpected

/-- workerCtx.close of libexec/worker.js: process.exit(0). -/
def workerCtxClose (α : Type) : ChildAction α := .exitProcess 0

/-- Decimal digit list of a natural number, most significant first: the
embedding of the JavaScript number-to-string conversion used when a counter
or pid is joined into a path. -/
def decDigits (n : Nat) : List Nat :=
  if n < 10 then [n] else decDigits (n / 10) ++ [n % 10]
decreasing_by
  exact Nat.div_lt_self (by omega) (by omega)

/-- Character of one decimal digit. -/
def digitChar (d : Nat) : Char := Char.ofNat (48 + d)

/-- Decimal string (as its character list) of a natural number. -/
def decChars (n : Nat) : List Char := (decDigits n).map digitChar

/-- SOCK_DIR_PATH = /tmp/node-webworker-<master pid>, the per-process socket
directory. -/
def SOCK_DIR_PATH (masterPid : Nat) : List Char :=
  "/tmp/node-webworker-".toList ++ decChars masterPid

/-- sockPath = path.join(SOCK_DIR_PATH, numWorkersCreated++): the worker
index is stringified and joined with a slash under the directory. -/
def sockPath (masterPid : Nat) (workerIndex : Nat) : List Char :=
  SOCK_DIR_PATH masterPid ++ '/' :: decChars workerIndex

/-- numWorkersCreated++ at construction: the constructed worker receives the
current counter value as its index and the counter is incremented. -/
def allocIndex (numWorkersCreated : Nat) : Nat × Nat :=
  (numWorkersCreated, numWorkersCreated + 1)

/-- Whether an event is a public terminate call. -/
def Ev.isTerm {α : Type} : Ev α → Bool
  | .term _ => true
  | _ => false

/-- Unfolding equation of decDigits. -/
theorem decDigits_eq (n : Nat) :
    decDigits n = if n < 10 then [n] else decDigits (n / 10) ++ [n % 10] := by
  rw [decDigits]

/-- The decimal digit list is never empty. -/
theorem decDigits_ne_nil (n : Nat) : decDigits n ≠ [] := by
  rw [decDigits_eq]
  split
  · simp
  · simp

/-- Every decimal digit is below ten. -/
theorem decDigits_lt_ten (n : Nat) : ∀ d ∈ decDigits n, d < 10 := by
  induction n using Nat.strong_induction_on with
  | _ n ih =>
    rw [decDigits_eq]
    split
    · next h => intro d hd; simp at hd; omega
    · next h =>
      intro d hd
      rw [List.mem_append] at hd
      rcases hd with hd | hd
      · exact ih (n / 10) (Nat.div_lt_self (by omega) (by omega)) d hd
      · simp at hd; omega

/-- Decimal digit lists of distinct naturals differ. -/
theorem decDigits_injective : ∀ m n : Nat, decDigits m = decDigits n → m = n := by
  intro m
  induction m using Nat.strong_induction_on with
  | _ m ih =>
    intro n h
    rw [decDigits_eq m, decDigits_eq n] at h
    by_cases hm : m < 10 <;> by_cases hn : n < 10
    · rw [if_pos hm, if_pos hn] at h
      simpa using h
    · rw [if_pos hm, if_neg hn] at h
      have hl := congrArg List.length h
      simp only [List.length_append, List.length_cons, List.length_nil] at hl
      have h0 : (decDigits (n / 10)).length = 0 := by omega
      exact absurd (List.length_eq_zero.mp h0) (decDigits_ne_nil (n / 10))
    · rw [if_neg hm, if_pos hn] at h
      have hl := congrArg List.length h
      simp only [List.length_append, List.length_cons, List.length_nil] at hl
      have h0 : (decDigits (m / 10)).length = 0 := by omega
      exact absurd (List.length_eq_zero.mp h0) (decDigits_ne_nil (m / 10))
    · rw [if_neg hm, if_neg hn] at h
      obtain ⟨h1, h2⟩ := List.append_inj' h (by simp)
      have hq : m / 10 = n / 10 :=
        ih (m / 10) (Nat.div_lt_self (by omega) (by omega)) (n / 10) h1
      simp at h2
      omega

/-- Digit characters of two decimal digits agree only for equal digits. -/
theorem digitChar_inj (d e : Nat) (hd : d < 10) (he : e < 10) :
    digitChar d = digitChar e → d = e := by
  interval_cases d <;> interval_cases e <;> decide

/-- Mapping digitChar over digit lists is injective. -/
theorem map_digitChar_inj : ∀ l1 l2 : List Nat, (∀ d ∈ l1, d < 10) → (∀ d ∈ l2, d < 10) →
    l1.map digitChar = l2.map digitChar → l1 = l2 := by
  intro l1
  induction l1 with
  | nil =>
    intro l2 _ _ h
    cases l2 with
    | nil => rfl
    | cons b bs => simp at h
  | cons a as ih =>
    intro l2 h1 h2 h
    cases l2 with
    | nil => simp at h
    | cons b bs =>
      simp only [List.map_cons, List.cons.injEq] at h
      have ha : a < 10 := h1 a (by simp)
      have hb : b < 10 := h2 b (by simp)
      have hab : a = b := digitChar_inj a b ha hb h.1
      subst hab
      have : as = bs :=
        ih bs (fun d hd => h1 d (by simp [hd])) (fun d hd => h2 d (by simp [hd])) h.2
      simp [this]

/-- Decimal strings of distinct naturals differ. -/
theorem decChars_injective (m n : Nat) (h : decChars m = decChars n) : m = n :=
  decDigits_injective m n
    (map_digitChar_inj (decDigits m) (decDigits n)
      (decDigits_lt_ten m) (decDigits_lt_ten n) h)

/-- C9: each controller constructed in the same master process receives a
fresh index from the strictly increasing numWorkersCreated counter, and the
socket paths derived from the master pid and two distinct worker indices are
distinct strings. -/
theorem sock_path_unique (p : Nat) :
    (∀ c : Nat, (allocIndex c).1 < (allocIndex (allocIndex c).2).1)
    ∧ ∀ i j : Nat, i ≠ j → sockPath p i ≠ sockPath p j := by
  constructor
  · intro c
    simp [allocIndex]
  · intro i j hne h
    apply hne
    unfold sockPath at h
    have h2 : ('/' :: decChars i) = ('/' :: decChars j) := List.append_cancel_left h
    have h3 : decChars i = decChars j := by
      simpa using h2
    exact decChars_injective i j h3

/-- Witness for C9: workers with indices 0 and 1 under master pid 42 get
distinct socket paths. -/
theorem sock_path_unique_w : (0 : Nat) ≠ 1 ∧ sockPath 42 0 ≠ sockPath 42 1 :=
  ⟨by decide, (sock_path_unique 42).2 0 1 (by decide)⟩

/-- Running a concatenated trace is running the pieces in sequence. -/
theorem run_append {α : Type} (a b : List (Ev α)) : ∀ st : WorkerState α,
    run st (a ++ b) = (run st a).bind fun st2 => run st2 b := by
  induction a with
  | nil => intro st; simp [run]
  | cons e a ih =>
    intro st
    cases h : step st e with
    | none => simp [run, h]
    | some st2 =>
      simp only [List.cons_append, run, h]
      exact ih st2

/-- While msgStream is undefined, a sequence of postMessage calls appends
the corresponding USER envelopes to the queue in call order and sends
nothing. -/
theorem run_posts_disconnected {α : Type} :
    ∀ (ps : List (Option α × Option Nat)) (st : WorkerState α),
      st.msgStreamDefined = false →
      run st (ps.map fun m => Ev.post m.1 m.2)
        = some { st with msgQueue := st.msgQueue ++ ps.map userEnv } := by
  intro ps
  induction ps with
  | nil => intro st h; simp [run]
  | cons m ps ih =>
    intro st h
    have hstep : step st (Ev.post m.1 m.2)
        = some { st with msgQueue := st.msgQueue ++ [userEnv m] } := by
      simp [step, postMessageImpl, h, userEnv]
    simp only [List.map_cons, run, hstep]
    rw [ih { st with msgQueue := st.msgQueue ++ [userEnv m] } h]
    simp [List.append_assoc]

/-- While msgStream is defined and the queue is empty, a sequence of
postMessage calls appends the corresponding USER envelopes to the wire in
call order and leaves the queue empty. -/
theorem run_posts_connected {α : Type} :
    ∀ (qs : List (Option α × Option Nat)) (st : WorkerState α),
      st.msgStreamDefined = true → st.msgQueue = [] →
      run st (qs.map fun m => Ev.post m.1 m.2)
        = some { st with wire := st.wire ++ qs.map userEnv } := by
  intro qs
  induction qs with
  | nil => intro st h hq; simp [run]
  | cons m qs ih =>
    intro st h hq
    have hstep : step st (Ev.post m.1 m.2)
        = some { st with wire := st.wire ++ [userEnv m] } := by
      simp [step, postMessageImpl, h, hq, userEnv]
    simp only [List.map_cons, run, hstep]
    rw [ih { st with wire := st.wire ++ [userEnv m] } h hq]
    simp [List.append_assoc]

/-- C1: for any postMessage calls ps issued before the connection is
accepted and qs issued after, the wire carries exactly the ps envelopes in
call order followed by the qs envelopes in call order, and the queue is
empty at the end: queued envelopes are flushed in order at acceptance,
before anything posted later, and never re-sent. -/
theorem queue_flush_order {α : Type} (ps qs : List (Option α × Option Nat)) :
    (run (initState α)
        ((ps.map fun m => Ev.post m.1 m.2) ++ Ev.accept :: qs.map fun m => Ev.post m.1 m.2)).map
        (fun st => (st.wire, st.msgQueue))
      = some (ps.map userEnv ++ qs.map userEnv, []) := by
  have hmid : run (initState α)
      ((ps.map fun m => Ev.post m.1 m.2) ++ Ev.accept :: qs.map fun m => Ev.post m.1 m.2)
      = run (⟨none, none, none, true, true, [], ps.map userEnv, 0, 0, false⟩ : WorkerState α)
          (qs.map fun m => Ev.post m.1 m.2) := by
    rw [run_append, run_posts_disconnected ps (initState α) rfl]
    rfl
  rw [hmid, run_posts_connected qs _ rfl rfl]
  rfl

/-- The biconditional mutual-exclusion property C2 asserts of a controller
state: a non-empty queue forces an undefined channel, and an undefined
channel forces a non-empty queue. -/
def mutexBothWays {α : Type} (st : WorkerState α) : Prop :=
  (st.msgQueue ≠ [] → st.msgStreamDefined = false)
  ∧ (st.msgStreamDefined = false → st.msgQueue ≠ [])

/-- C2 counterexample: a freshly constructed controller has an empty queue
and an undefined channel at the same time, so the claimed vice-versa
direction (channel undefined implies queue non-empty) is false at a
reachable state. -/
theorem mutual_exclusion_biconditional_fails_initially :
    run (initState Nat) [] = some (initState Nat)
    ∧ ¬ mutexBothWays (initState Nat) := by
  refine ⟨rfl, fun h => (h.2 rfl) rfl⟩

/-- postMessageImpl touches only msgQueue and wire. -/
theorem postMessageImpl_fields {α : Type} (st st2 : WorkerState α) (mt : Nat)
    (m : Option α) (fd : Option Nat) (h : postMessageImpl st mt m fd = some st2) :
    st2.msgStreamDefined = st.msgStreamDefined ∧ st2.killTimeoutID = st.killTimeoutID
    ∧ st2.killsSent = st.killsSent ∧ st2.exitEventsEmitted = st.exitEventsEmitted
    ∧ st2.cp = st.cp ∧ st2.pid = st.pid ∧ st2.srvClosed = st.srvClosed
    ∧ st2.streamDefined = st.streamDefined := by
  unfold postMessageImpl at h
  split at h
  · split at h <;> (cases h; exact ⟨rfl, rfl, rfl, rfl, rfl, rfl, rfl, rfl⟩)
  · simp at h

/-- postMessageImpl preserves the queue-channel exclusion invariant. -/
theorem postMessageImpl_preserves_mutex {α : Type} (st st2 : WorkerState α)
    (mt : Nat) (m : Option α) (fd : Option Nat)
    (hinv : st.msgQueue ≠ [] → st.msgStreamDefined = false)
    (h : postMessageImpl st mt m fd = some st2) :
    st2.msgQueue ≠ [] → st2.msgStreamDefined = false := by
  unfold postMessageImpl at h
  split at h
  · split at h
    · next hms =>
      cases h
      intro hq
      exact absurd (hinv hq) (by simp [hms])
    · next hms =>
      cases h
      intro _
      simpa using hms
  · simp at h

/-- Every controller step preserves the queue-channel exclusion
invariant. -/
theorem step_preserves_queue_mutex {α : Type} (st st2 : WorkerState α) (e : Ev α)
    (hinv : st.msgQueue ≠ [] → st.msgStreamDefined = false)
    (h : step st e = some st2) :
    st2.msgQueue ≠ [] → st2.msgStreamDefined = false := by
  cases e with
  | spawn p =>
    simp only [step] at h
    unfold spawnChild at h
    split at h
    · rw [Option.some.injEq] at h
      subst h
      exact hinv
    · exact Option.noConfusion h
  | accept =>
    simp only [step] at h
    unfold onConnection at h
    split at h
    · rw [Option.some.injEq] at h
      subst h
      intro hq
      exact absurd rfl hq
    · exact Option.noConfusion h
  | post m fd =>
    simp only [step] at h
    exact postMessageImpl_preserves_mutex st st2 MSGTYPE_USER m fd hinv h
  | term t =>
    cases hp : st.pid with
    | none =>
      simp only [step, terminate, hp] at h
      exact Option.noConfusion h
    | some p =>
      cases hc : st.cp with
      | none =>
        simp only [step, terminate, hp, hc] at h
        exact Option.noConfusion h
      | some cpPid =>
        simp only [step, terminate, hp, hc] at h
        split at h
        · split at h
          · rw [Option.some.injEq] at h
            subst h
            exact hinv
          · split at h
            · rw [Option.some.injEq] at h
              subst h
              exact hinv
            · split at h
              · exact Option.noConfusion h
              · rename_i stX heq
                split at h
                · rw [Option.some.injEq] at h
                  subst h
                  exact postMessageImpl_preserves_mutex st stX MSGTYPE_CLOSE none none hinv heq
                · rw [Option.some.injEq] at h
                  subst h
                  exact postMessageImpl_preserves_mutex st stX MSGTYPE_CLOSE none none hinv heq
        · exact Option.noConfusion h
  | timerFire =>
    simp only [step] at h
    cases hk : st.killTimeoutID with
    | none =>
      simp only [killTimerFire, hk] at h
      exact Option.noConfusion h
    | some d =>
      cases hc : st.cp with
      | none =>
        simp only [killTimerFire, hk, hc] at h
        exact Option.noConfusion h
      | some cpPid =>
        cases cpPid with
        | none =>
          simp only [killTimerFire, hk, hc, Option.some.injEq] at h
          subst h
          exact hinv
        | some q =>
          simp only [killTimerFire, hk, hc, Option.some.injEq] at h
          subst h
          exact hinv
  | exited =>
    simp only [step] at h
    cases hc : st.cp with
    | none =>
      simp only [childExit, hc] at h
      exact Option.noConfusion h
    | some cpPid =>
      cases cpPid with
      | none =>
      simp only [childExit, hc] at h
      exact Option.noConfusion h
      | some q =>
        simp only [childExit, hc, Option.some.injEq] at h
        subst h
        exact hinv

/-- Runs preserve the queue-channel exclusion invariant. -/
theorem run_preserves_queue_mutex {α : Type} :
    ∀ (evs : List (Ev α)) (st st2 : WorkerState α),
      (st.msgQueue ≠ [] → st.msgStreamDefined = false) → run st evs = some st2 →
      st2.msgQueue ≠ [] → st2.msgStreamDefined = false := by
  intro evs
  induction evs with
  | nil =>
    intro st st2 hinv h
    simp only [run, Option.some.injEq] at h
    subst h
    exact hinv
  | cons e evs ih =>
    intro st st2 hinv h
    cases hs : step st e with
    | none =>
      simp only [run, hs] at h
      exact Option.noConfusion h
    | some stm =>
      simp only [run, hs] at h
      exact ih stm st2 (step_preserves_queue_mutex st stm e hinv hs) h

/-- C2 (amended): in every reachable controller state a non-empty outbound
queue implies the channel is undefined (equivalently, the queued and direct
send paths are never usable simultaneously); this direction is preserved by
postMessage, connection acceptance (which flushes and empties the queue),
terminate, and every other step.  The converse direction of the claim is
false: before anything is queued, the channel is undefined while the queue
is empty. -/
theorem queue_nonempty_imp_channel_undefined {α : Type} (evs : List (Ev α))
    (st : WorkerState α) (h : run (initState α) evs = some st)
    (hq : st.msgQueue ≠ []) : st.msgStreamDefined = false :=
  run_preserves_queue_mutex evs (initState α) st (fun _ => rfl) h hq

/-- State of the controller after one postMessage before connecting. -/
def c2State : WorkerState Nat :=
  ⟨none, none, none, false, false, [⟨MSGTYPE_USER, some 5, none⟩], [], 0, 0, false⟩

/-- Witness for the amended C2: after one early postMessage the queue is
non-empty and the channel is indeed undefined. -/
theorem queue_nonempty_imp_channel_undefined_w :
    run (initState Nat) [Ev.post (some 5) none] = some c2State
    ∧ c2State.msgQueue ≠ []
    ∧ c2State.msgStreamDefined = false :=
  ⟨rfl, by decide,
    queue_nonempty_imp_channel_undefined [Ev.post (some 5) none] c2State rfl (by decide)⟩

/-- Once msgStream is defined, no step ever makes it undefined again. -/
theorem step_preserves_msgStream {α : Type} (st st2 : WorkerState α) (e : Ev α)
    (h : step st e = some st2) (hms : st.msgStreamDefined = true) :
    st2.msgStreamDefined = true := by
  cases e with
  | spawn p =>
    simp only [step] at h
    unfold spawnChild at h
    split at h
    · rw [Option.some.injEq] at h
      subst h
      exact hms
    · exact Option.noConfusion h
  | accept =>
    simp only [step] at h
    unfold onConnection at h
    split at h
    · rw [Option.some.injEq] at h
      subst h
      rfl
    · exact Option.noConfusion h
  | post m fd =>
    simp only [step] at h
    rw [(postMessageImpl_fields st st2 MSGTYPE_USER m fd h).1]
    exact hms
  | term t =>
    cases hp : st.pid with
    | none =>
      simp only [step, terminate, hp] at h
      exact Option.noConfusion h
    | some p =>
      cases hc : st.cp with
      | none =>
        simp only [step, terminate, hp, hc] at h
        exact Option.noConfusion h
      | some cpPid =>
        simp only [step, terminate, hp, hc] at h
        split at h
        · split at h
          · rw [Option.some.injEq] at h
            subst h
            exact hms
          · split at h
            · rw [Option.some.injEq] at h
              subst h
              exact hms
            · split at h
              · exact Option.noConfusion h
              · rename_i stX heq
                have hf := (postMessageImpl_fields st stX MSGTYPE_CLOSE none none heq).1
                split at h
                · rw [Option.some.injEq] at h
                  subst h
                  show stX.msgStreamDefined = true
                  rw [hf]
                  exact hms
                · rw [Option.some.injEq] at h
                  subst h
                  show stX.msgStreamDefined = true
                  rw [hf]
                  exact hms
        · exact Option.noConfusion h
  | timerFire =>
    simp only [step] at h
    cases hk : st.killTimeoutID with
    | none =>
      simp only [killTimerFire, hk] at h
      exact Option.noConfusion h
    | some d =>
      cases hc : st.cp with
      | none =>
        simp only [killTimerFire, hk, hc] at h
        exact Option.noConfusion h
      | some cpPid =>
        cases cpPid with
        | none =>
          simp only [killTimerFire, hk, hc, Option.some.injEq] at h
          subst h
          exact hms
        | some q =>
          simp only [killTimerFire, hk, hc, Option.some.injEq] at h
          subst h
          exact hms
  | exited =>
    simp only [step] at h
    cases hc : st.cp with
    | none =>
      simp only [childExit, hc] at h
      exact Option.noConfusion h
    | some cpPid =>
      cases cpPid with
      | none =>
        simp only [childExit, hc] at h
        exact Option.noConfusion h
      | some q =>
        simp only [childExit, hc, Option.some.injEq] at h
        subst h
        exact hms

/-- From any state whose channel is already bound, every trace containing a
further connection acceptance crashes on the assertion. -/
theorem run_second_accept_none {α : Type} (evs3 : List (Ev α)) :
    ∀ (evs2 : List (Ev α)) (st : WorkerState α),
      st.msgStreamDefined = true → run st (evs2 ++ Ev.accept :: evs3) = none := by
  intro evs2
  induction evs2 with
  | nil =>
    intro st hms
    have hstep : step st Ev.accept = none := by
      simp [step, onConnection, hms]
    simp [run, hstep]
  | cons e evs2 ih =>
    intro st hms
    cases h : step st e with
    | none => simp [run, h]
    | some st2 =>
      simp only [List.cons_append, run, h]
      exact ih st2 (step_preserves_msgStream st st2 e h hms)

/-- A successful connection acceptance leaves the channel bound. -/
theorem onConnection_binds_channel {α : Type} (st st2 : WorkerState α)
    (h : onConnection st = some st2) : st2.msgStreamDefined = true := by
  unfold onConnection at h
  split at h
  · rw [Option.some.injEq] at h
    subst h
    rfl
  · exact Option.noConfusion h

/-- C8: the first accepted connection binds the channel, and a controller
never survives a second connection acceptance: every trace of the controller
containing two acceptances crashes on the assertion, so an established
stream and channel are never replaced. -/
theorem at_most_one_connection {α : Type} (evs1 evs2 evs3 : List (Ev α)) :
    ((onConnection (initState α)).map fun st => st.msgStreamDefined) = some true
    ∧ run (initState α) (evs1 ++ Ev.accept :: (evs2 ++ Ev.accept :: evs3)) = none := by
  constructor
  · rfl
  · have aux : ∀ (l1 : List (Ev α)) (st : WorkerState α),
        run st (l1 ++ Ev.accept :: (evs2 ++ Ev.accept :: evs3)) = none := by
      intro l1
      induction l1 with
      | nil =>
        intro st
        cases h : step st Ev.accept with
        | none => simp [run, h]
        | some st2 =>
          simp only [List.nil_append, run, h]
          exact run_second_accept_none evs3 evs2 st2
            (onConnection_binds_channel st st2 h)
      | cons e l1 ih =>
        intro st
        cases h : step st e with
        | none => simp [run, h]
        | some st2 =>
          simp only [List.cons_append, run, h]
          exact ih st2
    exact aux evs1 (initState α)

/-- Trace exhibiting a terminate call after the kill timer has fired. -/
def c4Trace : List (Ev Nat) :=
  [Ev.spawn 7, Ev.accept, Ev.term (some 50), Ev.timerFire, Ev.term (some 50)]

/-- C4 counterexample: spawn, connect, terminate(50), let the timer fire,
then call terminate(50) again.  The second call is not a no-op: a second
CLOSE envelope goes out on the wire (two in total, not exactly one) and a
second kill timer is armed, because the fired timer cleared killTimeoutID
and the code only checks that handle. -/
theorem terminate_after_timer_fired_not_noop :
    (run (initState Nat) c4Trace).map
        (fun st => (st.wire, st.killTimeoutID, st.killsSent))
      = some ([closeEnv Nat, closeEnv Nat], some 50, 1) := by
  rfl

/-- C4 (amended): terminate is a no-op while the shutdown timer is still
armed, and after the child process has exited: in both cases it returns the
state unchanged, sending no CLOSE and never resetting the armed timer.
(Once the timer has fired with the child still alive, a further terminate is
not a no-op — it sends another CLOSE and arms a new timer.) -/
theorem terminate_noop_when_timer_set_or_exited {α : Type} (st : WorkerState α)
    (t : Option Nat) (p : Nat) (hp : st.pid = some p)
    (h : (st.cp = some (some p) ∧ st.killTimeoutID.isSome = true) ∨ st.cp = some none) :
    terminate st t = some st := by
  rcases h with ⟨hcp, hk⟩ | hcp
  · simp [terminate, hp, hcp, hk]
  · simp [terminate, hp, hcp]

/-- Controller state with the kill timer armed and the child running. -/
def c4State : WorkerState Nat :=
  ⟨some 50, some 7, some (some 7), true, true, [], [closeEnv Nat], 0, 0, false⟩

/-- Witness for the amended C4: with the timer armed, a second terminate
call leaves the state untouched. -/
theorem terminate_noop_when_timer_set_or_exited_w :
    c4State.pid = some 7
    ∧ c4State.cp = some (some 7) ∧ c4State.killTimeoutID.isSome = true
    ∧ terminate c4State (some 99) = some c4State :=
  ⟨rfl, rfl, rfl,
    terminate_noop_when_timer_set_or_exited c4State (some 99) 7 rfl (Or.inl ⟨rfl, rfl⟩)⟩

/-- A step that is not a terminate call neither arms the kill timer nor
sends a kill. -/
theorem step_no_term_no_kill {α : Type} (st st2 : WorkerState α) (e : Ev α)
    (he : e.isTerm = false) (hk : st.killTimeoutID = none)
    (h : step st e = some st2) :
    st2.killTimeoutID = none ∧ st2.killsSent = st.killsSent := by
  cases e with
  | spawn p =>
    simp only [step] at h
    unfold spawnChild at h
    split at h
    · rw [Option.some.injEq] at h
      subst h
      exact ⟨hk, rfl⟩
    · exact Option.noConfusion h
  | accept =>
    simp only [step] at h
    unfold onConnection at h
    split at h
    · rw [Option.some.injEq] at h
      subst h
      exact ⟨hk, rfl⟩
    · exact Option.noConfusion h
  | post m fd =>
    simp only [step] at h
    have hf := postMessageImpl_fields st st2 MSGTYPE_USER m fd h
    exact ⟨hf.2.1.trans hk, hf.2.2.1⟩
  | term t => simp [Ev.isTerm] at he
  | timerFire =>
    simp only [step] at h
    simp only [killTimerFire, hk] at h
    exact Option.noConfusion h
  | exited =>
    simp only [step] at h
    cases hc : st.cp with
    | none =>
      simp only [childExit, hc] at h
      exact Option.noConfusion h
    | some cpPid =>
      cases cpPid with
      | none =>
        simp only [childExit, hc] at h
        exact Option.noConfusion h
      | some q =>
        simp only [childExit, hc, Option.some.injEq] at h
        subst h
        exact ⟨rfl, rfl⟩

/-- A run containing no terminate call, started with no armed timer, never
arms a timer and never sends a kill. -/
theorem run_no_term_no_kill {α : Type} :
    ∀ (evs : List (Ev α)) (st st2 : WorkerState α),
      evs.all (fun e => !e.isTerm) = true → st.killTimeoutID = none →
      run st evs = some st2 →
      st2.killTimeoutID = none ∧ st2.killsSent = st.killsSent := by
  intro evs
  induction evs with
  | nil =>
    intro st st2 _ hk h
    simp only [run, Option.some.injEq] at h
    subst h
    exact ⟨hk, rfl⟩
  | cons e evs ih =>
    intro st st2 hall hk h
    simp only [List.all_cons, Bool.and_eq_true] at hall
    have he : e.isTerm = false := by simpa using hall.1
    cases hs : step st e with
    | none =>
      simp only [run, hs] at h
      exact Option.noConfusion h
    | some stm =>
      simp only [run, hs] at h
      obtain ⟨hk2, hks⟩ := step_no_term_no_kill st stm e he hk hs
      obtain ⟨hk3, hks2⟩ := ih stm st2 hall.2 hk2 h
      exact ⟨hk3, hks2.trans hks⟩

/-- terminate with a zero timeout arms no timer. -/
theorem terminate_zero_no_timer {α : Type} (st st2 : WorkerState α)
    (hk : st.killTimeoutID = none) (h : terminate st (some 0) = some st2) :
    st2.killTimeoutID = none := by
  cases hp : st.pid with
  | none =>
    simp only [terminate, hp] at h
    exact Option.noConfusion h
  | some p =>
    cases hc : st.cp with
    | none =>
      simp only [terminate, hp, hc] at h
      exact Option.noConfusion h
    | some cpPid =>
      simp only [terminate, hp, hc] at h
      split at h
      · split at h
        · rw [Option.some.injEq] at h
          subst h
          exact hk
        · split at h
          · rw [Option.some.injEq] at h
            subst h
            exact hk
          · split at h
            · exact Option.noConfusion h
            · rename_i stX heq
              split at h
              · next hgt => simp at hgt
              · rw [Option.some.injEq] at h
                subst h
                exact ((postMessageImpl_fields st stX MSGTYPE_CLOSE none none heq).2.1).trans hk
      · exact Option.noConfusion h

/-- C5: an omitted timeout behaves exactly like 5000 milliseconds; a zero
timeout arms no timer, and afterwards no kill signal is ever sent in any
continuation free of further terminate calls; a positive timeout d arms the
kill deadline with d; and the deadline firing on a still-running child
clears the handle and sends exactly one SIGTERM kill. -/
theorem terminate_timeout_semantics (α : Type) :
    (∀ st : WorkerState α, terminate st none = terminate st (some 5000))
    ∧ (∀ st st2 : WorkerState α, st.killTimeoutID = none →
        terminate st (some 0) = some st2 →
        st2.killTimeoutID = none
        ∧ ∀ (evs : List (Ev α)) (st3 : WorkerState α),
            evs.all (fun e => !e.isTerm) = true → run st2 evs = some st3 →
            st3.killsSent = st2.killsSent)
    ∧ (∀ (st st2 : WorkerState α) (p d : Nat), st.killTimeoutID = none →
        st.pid = some p → st.cp = some (some p) → 0 < d →
        terminate st (some d) = some st2 → st2.killTimeoutID = some d)
    ∧ (∀ (st : WorkerState α) (d p : Nat), st.killTimeoutID = some d →
        st.cp = some (some p) →
        killTimerFire st
          = some { st with killTimeoutID := none, killsSent := st.killsSent + 1 }) := by
  refine ⟨?_, ?_, ?_, ?_⟩
  · intro st
    cases hp : st.pid <;> cases hc : st.cp <;> simp [terminate, hp, hc]
  · intro st st2 hk h
    refine ⟨terminate_zero_no_timer st st2 hk h, ?_⟩
    intro evs st3 hall hrun
    exact (run_no_term_no_kill evs st2 st3 hall
      (terminate_zero_no_timer st st2 hk h) hrun).2
  · intro st st2 p d hk hp hcp hd h
    simp [terminate, hp, hcp, hk, hd] at h
    split at h
    · exact Option.noConfusion h
    · rename_i stX heq
      rw [Option.some.injEq] at h
      subst h
      rfl
  · intro st d p hk hcp
    unfold killTimerFire
    rw [hk, hcp]

/-- Base connected state used to exercise the terminate timeout clauses. -/
def c5Base : WorkerState Nat :=
  ⟨none, some 7, some (some 7), true, true, [], [], 0, 0, false⟩

/-- c5Base after terminate with a zero timeout. -/
def c5Zero : WorkerState Nat :=
  ⟨none, some 7, some (some 7), true, true, [], [closeEnv Nat], 0, 0, false⟩

/-- c5Base after terminate with timeout 50. -/
def c5Armed : WorkerState Nat :=
  ⟨some 50, some 7, some (some 7), true, true, [], [closeEnv Nat], 0, 0, false⟩

/-- Witness for C5: on a concrete connected worker, omitted equals 5000,
terminate(0) arms nothing and a subsequent child exit sends no kill,
terminate(50) arms the 50 ms deadline, and its firing kills once. -/
theorem terminate_timeout_semantics_w :
    terminate c5Base none = terminate c5Base (some 5000)
    ∧ (c5Base.killTimeoutID = none ∧ terminate c5Base (some 0) = some c5Zero
        ∧ c5Zero.killTimeoutID = none
        ∧ run c5Zero [Ev.exited]
            = some (⟨none, some 7, some none, true, true, [], [closeEnv Nat], 0, 1,
                true⟩ : WorkerState Nat)
        ∧ (⟨none, some 7, some none, true, true, [], [closeEnv Nat], 0, 1,
            true⟩ : WorkerState Nat).killsSent = c5Zero.killsSent)
    ∧ (terminate c5Base (some 50) = some c5Armed ∧ c5Armed.killTimeoutID = some 50)
    ∧ killTimerFire c5Armed
        = some { c5Armed with killTimeoutID := none, killsSent := c5Armed.killsSent + 1 } := by
  have h := terminate_timeout_semantics Nat
  exact ⟨h.1 c5Base,
    ⟨rfl, rfl, (h.2.1 c5Base c5Zero rfl rfl).1, rfl,
      (h.2.1 c5Base c5Zero rfl rfl).2 [Ev.exited] _ rfl rfl⟩,
    ⟨rfl, h.2.2.1 c5Base c5Armed 7 50 rfl rfl rfl (by decide) rfl⟩,
    h.2.2.2 c5Armed 50 7 rfl rfl⟩

/-- After the child has exited (cp.pid cleared, timer cleared), every step
keeps the child exited, keeps the timer clear, and neither kills nor emits
another exit event. -/
theorem step_after_exit {α : Type} (st st2 : WorkerState α) (e : Ev α)
    (hcp : st.cp = some none) (hk : st.killTimeoutID = none)
    (h : step st e = some st2) :
    st2.cp = some none ∧ st2.killTimeoutID = none
    ∧ st2.killsSent = st.killsSent ∧ st2.exitEventsEmitted = st.exitEventsEmitted := by
  cases e with
  | spawn p =>
    simp only [step] at h
    unfold spawnChild at h
    split at h
    · next hc =>
      rw [hcp] at hc
      exact Option.noConfusion hc
    · exact Option.noConfusion h
  | accept =>
    simp only [step] at h
    unfold onConnection at h
    split at h
    · rw [Option.some.injEq] at h
      subst h
      exact ⟨hcp, hk, rfl, rfl⟩
    · exact Option.noConfusion h
  | post m fd =>
    simp only [step] at h
    have hf := postMessageImpl_fields st st2 MSGTYPE_USER m fd h
    exact ⟨hf.2.2.2.2.1.trans hcp, hf.2.1.trans hk, hf.2.2.1, hf.2.2.2.1⟩
  | term t =>
    cases hp : st.pid with
    | none =>
      simp only [step, terminate, hp] at h
      exact Option.noConfusion h
    | some p =>
      simp [step, terminate, hp, hcp] at h
      subst h
      exact ⟨hcp, hk, rfl, rfl⟩
  | timerFire =>
    simp only [step] at h
    simp only [killTimerFire, hk] at h
    exact Option.noConfusion h
  | exited =>
    simp only [step] at h
    simp only [childExit, hcp] at h
    exact Option.noConfusion h

/-- After the child has exited, no continuation ever kills or emits another
exit event. -/
theorem run_after_exit {α : Type} :
    ∀ (evs : List (Ev α)) (st st2 : WorkerState α),
      st.cp = some none → st.killTimeoutID = none → run st evs = some st2 →
      st2.killsSent = st.killsSent ∧ st2.exitEventsEmitted = st.exitEventsEmitted := by
  intro evs
  induction evs with
  | nil =>
    intro st st2 _ _ h
    simp only [run, Option.some.injEq] at h
    subst h
    exact ⟨rfl, rfl⟩
  | cons e evs ih =>
    intro st st2 hcp hk h
    cases hs : step st e with
    | none =>
      simp only [run, hs] at h
      exact Option.noConfusion h
    | some stm =>
      simp only [run, hs] at h
      obtain ⟨hcp2, hk2, hks, hex⟩ := step_after_exit st stm e hcp hk hs
      obtain ⟨hks2, hex2⟩ := ih stm st2 hcp2 hk2 h
      exact ⟨hks2.trans hks, hex2.trans hex⟩

/-- C6: when the child exits while a forced-kill deadline may still be
pending, the exit listener clears the timer, sends no kill itself, emits
exactly one exit event, and no continuation of the controller ever sends a
kill signal or emits a duplicate exit event afterwards. -/
theorem child_exit_cancels_kill_timer {α : Type} (st st2 : WorkerState α) (p : Nat)
    (hcp : st.cp = some (some p)) (h : childExit st = some st2) :
    st2.killTimeoutID = none
    ∧ st2.killsSent = st.killsSent
    ∧ st2.exitEventsEmitted = st.exitEventsEmitted + 1
    ∧ ∀ (evs : List (Ev α)) (st3 : WorkerState α), run st2 evs = some st3 →
        st3.killsSent = st2.killsSent ∧ st3.exitEventsEmitted = st2.exitEventsEmitted := by
  have h2 : ({ st with cp := some none, killTimeoutID := none, srvClosed := true, exitEventsEmitted := st.exitEventsEmitted + 1 } : WorkerState α) = st2 := by
    simp only [childExit, hcp, Option.some.injEq] at h
    exact h
  subst h2
  refine ⟨rfl, rfl, rfl, ?_⟩
  intro evs st3 hrun
  exact run_after_exit evs _ st3 rfl rfl hrun

/-- Connected state with the kill timer armed and the child running, used to
exercise the exit path. -/
def c6State : WorkerState Nat :=
  ⟨some 200, some 9, some (some 9), true, true, [], [closeEnv Nat], 0, 0, false⟩

/-- c6State after the child exits. -/
def c6After : WorkerState Nat :=
  ⟨none, some 9, some none, true, true, [], [closeEnv Nat], 0, 1, true⟩

/-- Witness for C6: a child exit under an armed 200 ms timer clears the
timer, kills nothing, emits one exit event, and a subsequent terminate call
in the continuation neither kills nor emits again. -/
theorem child_exit_cancels_kill_timer_w :
    c6State.cp = some (some 9) ∧ childExit c6State = some c6After
    ∧ c6After.killTimeoutID = none
    ∧ c6After.killsSent = c6State.killsSent
    ∧ c6After.exitEventsEmitted = c6State.exitEventsEmitted + 1
    ∧ run c6After [Ev.term (some 5)] = some c6After := by
  have h := child_exit_cancels_kill_timer (α := Nat) c6State c6After 9 rfl rfl
  exact ⟨rfl, rfl, h.1, h.2.1, h.2.2.1, rfl⟩

/-- C10: calling terminate while pid is still undefined (the child has not
been spawned yet) trips the first assertion instead of returning normally. -/
theorem terminate_before_spawn_asserts {α : Type} (st : WorkerState α)
    (t : Option Nat) (h : st.pid = none) : terminate st t = none := by
  cases hc : st.cp <;> simp [terminate, h, hc]

/-- Witness for C10: a freshly constructed controller has no pid, and
terminate on it crashes with an assertion failure. -/
theorem terminate_before_spawn_asserts_w :
    (initState Nat).pid = none ∧ terminate (initState Nat) (some 0) = none :=
  ⟨rfl, terminate_before_spawn_asserts (initState Nat) (some 0) rfl⟩

/-- C7: the child runtime of libexec/worker.js does not act on a CLOSE
envelope: its msg listener has no CLOSE case, so the envelope falls into the
default branch and is merely logged as unexpected, while the graceful
self-termination helper workerCtx.close (which the listener never invokes)
is a clean process exit. -/
theorem child_ignores_close :
    childHandleMsg (α := Nat) (some (MSGTYPE_CLOSE, none)) = ChildAction.logUnexpected
    ∧ workerCtxClose Nat = ChildAction.exitProcess 0
    ∧ ChildAction.logUnexpected ≠ workerCtxClose Nat := by
  refine ⟨rfl, rfl, by decide⟩

/-- C3: classification of every envelope the connected controller receives:
NOOP is discarded with no action, ERROR becomes a next-tick error event
carrying the payload, USER becomes a next-tick message event with the
payload as data and the fd attached when truthy, an invalid message is
logged and dropped, and any other type is logged as unexpected with no
event. -/
theorem inbound_dispatch_classification (α : Type) :
    (∀ (fd : Option Nat) (p : Option α), handleMessage (some (MSGTYPE_NOOP, p)) fd = [])
    ∧ (∀ (fd : Option Nat) (p : Option α),
        handleMessage (some (MSGTYPE_ERROR, p)) fd = [MasterAction.nextTickEmitError p])
    ∧ (∀ (fd : Option Nat) (p : Option α),
        handleMessage (some (MSGTYPE_USER, p)) fd
          = [MasterAction.nextTickEmitMessage p (attachFd fd)])
    ∧ (∀ fd : Option Nat, handleMessage (α := α) none fd = [MasterAction.logInvalid])
    ∧ (∀ (fd : Option Nat) (p : Option α) (t : Nat), t ≠ MSGTYPE_NOOP → t ≠ MSGTYPE_ERROR →
        t ≠ MSGTYPE_USER → handleMessage (some (t, p)) fd = [MasterAction.logUnexpected]) := by
  refine ⟨fun fd p => rfl, fun fd p => rfl, fun fd p => rfl, fun fd => rfl,
    fun fd p t h1 h2 h3 => ?_⟩
  simp [handleMessage, h1, h2, h3]

/-- Witness for C3: the unexpected-type branch fires for a CLOSE envelope
reaching the master. -/
theorem inbound_dispatch_classification_w :
    (MSGTYPE_CLOSE ≠ MSGTYPE_NOOP ∧ MSGTYPE_CLOSE ≠ MSGTYPE_ERROR
      ∧ MSGTYPE_CLOSE ≠ MSGTYPE_USER)
    ∧ handleMessage (α := Nat) (some (MSGTYPE_CLOSE, none)) none
        = [MasterAction.logUnexpected] :=
  ⟨by decide, (inbound_dispatch_classification Nat).2.2.2.2 none none MSGTYPE_CLOSE
    (by decide) (by decide) (by decide)⟩

end WebWorker
